import Mathlib

/-!
A shallow embedding of `minesweeper.py` (the `Sentence` and `MinesweeperAI`
classes).  Python sets of cells are modelled as insertion-ordered duplicate-free
lists of integer pairs; Python `int` is `Int`.  Each definition mirrors the
corresponding Python method statement by statement.
-/

/-- A board cell: an ordered pair of integers `(row, column)`. -/
abbrev Cell := Int × Int

/-- `s.add(x)` on a Python set modelled as an insertion-ordered list. -/
def setAdd (l : List Cell) (x : Cell) : List Cell :=
  if x ∈ l then l else l ++ [x]

/-- Python set difference `l - r` (kept in `l`'s iteration order). -/
def setDiff (l r : List Cell) : List Cell :=
  l.filter (fun x => decide (x ∉ r))

/-- Python `l.union(r)`: fold `add` of `r`'s elements into `l`. -/
def setUnion (l r : List Cell) : List Cell :=
  r.foldl setAdd l

/-- Python `set(cells)` applied to an iterable given in some order. -/
def pySet (l : List Cell) : List Cell :=
  l.foldl setAdd []

/-- `Sentence`: a set of board cells together with a count of how many of
those cells are mines (`minesweeper.py` lines 87-141). -/
structure Sentence where
  cells : List Cell
  count : Int
deriving DecidableEq, Repr

/-- `Sentence.__init__`: `self.cells = set(cells); self.count = count`. -/
def Sentence.ofList (cells : List Cell) (count : Int) : Sentence :=
  ⟨pySet cells, count⟩

/-- `Sentence.__eq__`: extensional equality of the cell sets plus equality of
the counts (Python `==` on sets compares membership, not order). -/
def Sentence.pyEq (a b : Sentence) : Bool :=
  decide ((∀ x ∈ a.cells, x ∈ b.cells) ∧ (∀ x ∈ b.cells, x ∈ a.cells) ∧
    a.count = b.count)

/-- `Sentence.__hash__`: `hash((frozenset(self.cells), self.count))`.
Python's `frozenset` hash depends only on membership; we model the opaque
hash by an explicit membership-only combinator (a sum over the cells). -/
def Sentence.pyHash (s : Sentence) : Int :=
  (s.cells.map (fun c => c.1 * 1000003 + c.2)).sum + 524287 * s.count

/-- `Sentence.known_mines`: the full cell set when
`len(self.cells) == self.count and len(self.cells) > 0`, else empty. -/
def Sentence.known_mines (s : Sentence) : List Cell :=
  if (s.cells.length : Int) = s.count ∧ 0 < s.cells.length then s.cells else []

/-- `Sentence.known_safes`: the full cell set when `self.count == 0`,
else empty. -/
def Sentence.known_safes (s : Sentence) : List Cell :=
  if s.count = 0 then s.cells else []

/-- `Sentence.mark_mine`: if the cell is a member, remove it and decrement
the count by one; otherwise do nothing. -/
def Sentence.mark_mine (s : Sentence) (cell : Cell) : Sentence :=
  if cell ∈ s.cells then ⟨s.cells.erase cell, s.count - 1⟩ else s

/-- `Sentence.mark_safe`: if the cell is a member, remove it leaving the
count unchanged; otherwise do nothing. -/
def Sentence.mark_safe (s : Sentence) (cell : Cell) : Sentence :=
  if cell ∈ s.cells then ⟨s.cells.erase cell, s.count⟩ else s

/-- The `MinesweeperAI` state (`minesweeper.py` lines 146-165). -/
structure MinesweeperAI where
  height : Int
  width : Int
  moves_made : List Cell
  mines : List Cell
  safes : List Cell
  knowledge : List Sentence
deriving DecidableEq, Repr

/-- `MinesweeperAI.__init__(height, width)`. -/
def MinesweeperAI.init (height width : Int) : MinesweeperAI :=
  ⟨height, width, [], [], [], []⟩

/-- `MinesweeperAI.mark_mine`: add the cell to `self.mines` and broadcast
`Sentence.mark_mine` to every sentence in the knowledge list. -/
def MinesweeperAI.mark_mine (ai : MinesweeperAI) (cell : Cell) : MinesweeperAI :=
  { ai with
    mines := setAdd ai.mines cell
    knowledge := ai.knowledge.map (fun s => s.mark_mine cell) }

/-- `MinesweeperAI.mark_safe`: add the cell to `self.safes` and broadcast
`Sentence.mark_safe` to every sentence in the knowledge list. -/
def MinesweeperAI.mark_safe (ai : MinesweeperAI) (cell : Cell) : MinesweeperAI :=
  { ai with
    safes := setAdd ai.safes cell
    knowledge := ai.knowledge.map (fun s => s.mark_safe cell) }

/-- The nine `(di, dj)` offsets visited by the nested
`for di in range(-1,2): for dj in range(-1,2)` loops, in loop order. -/
def neighborDeltas : List (Int × Int) :=
  [(-1, -1), (-1, 0), (-1, 1), (0, -1), (0, 0), (0, 1), (1, -1), (1, 0), (1, 1)]

/-- One iteration of the nested loops of `addNewStement`, acting on the
accumulator `(cellsNewStement, count)`.  The order of the tests mirrors the
source: skip the cell itself, skip known safes, decrement and skip known
mines, then the in-grid test `0 <= i+di < self.width and 0 <= j+dj <
self.height` (note the source compares the row against `width` and the
column against `height`). -/
def MinesweeperAI.addNewStementStep (ai : MinesweeperAI) (cell : Cell)
    (acc : List Cell × Int) (d : Int × Int) : List Cell × Int :=
  if d = (0, 0) then acc
  else
    let c : Cell := (cell.1 + d.1, cell.2 + d.2)
    if c ∈ ai.safes then acc
    else if c ∈ ai.mines then (acc.1, acc.2 - 1)
    else if 0 ≤ c.1 ∧ c.1 < ai.width ∧ 0 ≤ c.2 ∧ c.2 < ai.height then
      (setAdd acc.1 c, acc.2)
    else acc

/-- `MinesweeperAI.addNewStement`: build the sentence for a new observation
`(cell, count)` and append it to the knowledge list. -/
def MinesweeperAI.addNewStement (ai : MinesweeperAI) (cell : Cell)
    (count : Int) : MinesweeperAI :=
  let r := neighborDeltas.foldl (ai.addNewStementStep cell) ([], count)
  { ai with knowledge := ai.knowledge ++ [⟨r.1, r.2⟩] }

/-- `MinesweeperAI.checkNewStement`: for every ordered pair of
distinct-index sentences where the first's cells are a subset of the
second's, build the difference sentence and append it when no `__eq__`-equal
sentence is already pending or present.  (The source's
`if difSentenceCount >= 0:` block rebinds `new_sentence` to an identical
value, so it has no effect and is not reproduced.) -/
def MinesweeperAI.checkNewStement (ai : MinesweeperAI) : MinesweeperAI :=
  let ks := ai.knowledge.enum
  let new_statements := ks.foldl (fun acc p =>
    ks.foldl (fun acc q =>
      if p.1 ≠ q.1 ∧ decide (∀ x ∈ p.2.cells, x ∈ q.2.cells) then
        let new_sentence : Sentence :=
          ⟨setDiff q.2.cells p.2.cells, q.2.count - p.2.count⟩
        if ¬ (acc.any (fun s => s.pyEq new_sentence)) ∧
           ¬ (ai.knowledge.any (fun s => s.pyEq new_sentence)) then
          acc ++ [new_sentence]
        else acc
      else acc) acc) ([] : List Sentence)
  { ai with knowledge := ai.knowledge ++ new_statements }

/-- `MinesweeperAI.update_knowledge`.  In the source the `while change:`
body consists only of resetting `change`, scanning the sentences into
`safes`/`mines`, and computing `newSafes`; the statements that set `change`
back to `True` are dedented out of the loop, so the loop body runs exactly
once and the function performs a single propagation pass: mark the new
safes, then the new mines, then drop sentences whose cell set is empty. -/
def MinesweeperAI.update_knowledge (ai : MinesweeperAI) : MinesweeperAI :=
  let safes := ai.knowledge.foldl (fun acc s => setUnion acc s.known_safes) []
  let mines := ai.knowledge.foldl (fun acc s => setUnion acc s.known_mines) []
  let newSafes := setDiff safes ai.safes
  let ai1 := newSafes.foldl MinesweeperAI.mark_safe ai
  let newMines := setDiff mines ai1.mines
  let ai2 := newMines.foldl MinesweeperAI.mark_mine ai1
  { ai2 with knowledge := ai2.knowledge.filter (fun s => decide (0 < s.cells.length)) }

/-- `MinesweeperAI.add_knowledge(cell, count)`: record the move, mark the
cell safe, add the observation sentence, propagate, synthesize subset
differences, propagate again. -/
def MinesweeperAI.add_knowledge (ai : MinesweeperAI) (cell : Cell)
    (count : Int) : MinesweeperAI :=
  let ai1 := { ai with moves_made := setAdd ai.moves_made cell }
  let ai2 := ai1.mark_safe cell
  let ai3 := ai2.addNewStement cell count
  let ai4 := ai3.update_knowledge
  let ai5 := ai4.checkNewStement
  ai5.update_knowledge

/-- `MinesweeperAI.make_safe_move`: some element of
`self.safes - self.moves_made - self.mines`, or `None` when empty.
`next(iter(move))` picks an arbitrary element; the model takes the first in
iteration order. -/
def MinesweeperAI.make_safe_move (ai : MinesweeperAI) : Option Cell :=
  let move := setDiff (setDiff ai.safes ai.moves_made) ai.mines
  if 0 < move.length then move.head? else none

/-- The `allcells` set built by `make_random_move`: the source loops
`for i in range(0, self.width): for j in range(0, self.height)` and adds
`(i, j)`, so the first coordinate ranges below `width` and the second below
`height`. -/
def MinesweeperAI.allcells (ai : MinesweeperAI) : List Cell :=
  (List.range ai.width.toNat).foldl (fun acc i =>
    (List.range ai.height.toNat).foldl (fun acc j =>
      setAdd acc ((i : Int), (j : Int))) acc) []

/-- `MinesweeperAI.make_random_move`: some element of
`(allcells - self.mines) - self.moves_made`, or `None` when empty. -/
def MinesweeperAI.make_random_move (ai : MinesweeperAI) : Option Cell :=
  let move := setDiff (setDiff ai.allcells ai.mines) ai.moves_made
  if 0 < move.length then move.head? else none

/-! ### Basic facts about the set model -/

theorem mem_setAdd {l : List Cell} {x y : Cell} :
    y ∈ setAdd l x ↔ y ∈ l ∨ y = x := by
  unfold setAdd
  split
  · next h => simp only [iff_self_or]; rintro rfl; exact h
  · simp

theorem subset_setAdd (l : List Cell) (x : Cell) : l ⊆ setAdd l x := by
  intro y hy
  exact mem_setAdd.mpr (Or.inl hy)

theorem mem_setDiff {l r : List Cell} {x : Cell} :
    x ∈ setDiff l r ↔ x ∈ l ∧ x ∉ r := by
  simp [setDiff, List.mem_filter]

theorem mem_foldl_setAdd (l : List Cell) (acc : List Cell) (x : Cell) :
    x ∈ l.foldl setAdd acc ↔ x ∈ acc ∨ x ∈ l := by
  induction l generalizing acc with
  | nil => simp
  | cons a l ih =>
      simp only [List.foldl_cons, ih, mem_setAdd, List.mem_cons]
      tauto

theorem mem_pySet {l : List Cell} {x : Cell} : x ∈ pySet l ↔ x ∈ l := by
  simp [pySet, mem_foldl_setAdd]

theorem nodup_setAdd {l : List Cell} (h : l.Nodup) (x : Cell) :
    (setAdd l x).Nodup := by
  unfold setAdd
  split
  · exact h
  · next hx => simp [List.nodup_append, h, hx]

theorem nodup_pySet (l : List Cell) : (pySet l).Nodup := by
  have key : ∀ (l acc : List Cell), acc.Nodup → (l.foldl setAdd acc).Nodup := by
    intro l
    induction l with
    | nil => intro acc h; exact h
    | cons a l ih => intro acc h; exact ih _ (nodup_setAdd h a)
  exact key l [] List.nodup_nil

/-! ### Claim theorems -/

/-- C4: a sentence's `known_mines` is the full cell set exactly when the
count equals the number of cells and the cell set is non-empty, and is
empty otherwise (so the empty-cells/zero-count sentence yields no hazard
conclusion); `known_safes` is the full cell set exactly when the count is
zero, and empty otherwise; a sentence with `0 < count < |cells|` yields
both results empty. -/
theorem C4_trivial_conclusions (s : Sentence) :
    ((s.cells.length : Int) = s.count ∧ s.cells ≠ [] → s.known_mines = s.cells) ∧
    ((s.cells.length : Int) ≠ s.count ∨ s.cells = [] → s.known_mines = []) ∧
    (s.count = 0 → s.known_safes = s.cells) ∧
    (s.count ≠ 0 → s.known_safes = []) ∧
    (0 < s.count → s.count < (s.cells.length : Int) →
      s.known_mines = [] ∧ s.known_safes = []) := by
  unfold Sentence.known_mines Sentence.known_safes
  refine ⟨?_, ?_, ?_, ?_, ?_⟩
  · rintro ⟨h1, h2⟩
    rw [if_pos ⟨h1, List.length_pos.mpr h2⟩]
  · rintro (h | h)
    · rw [if_neg (fun hc => h hc.1)]
    · rw [if_neg (fun hc => by simp [h] at hc)]
  · intro h
    rw [if_pos h]
  · intro h
    rw [if_neg h]
  · intro h1 h2
    constructor
    · rw [if_neg (fun hc => by omega)]
    · rw [if_neg (by omega)]

/-- C4 witness: the theorem instantiated at the concrete sentence
`{(0,0),(0,1)} = 1`, whose count is strictly between zero and the cell
count, so both conclusion sets are empty. -/
theorem C4_trivial_conclusions_witness :
    Sentence.known_mines ⟨[((0 : Int), (0 : Int)), (0, 1)], 1⟩ = [] ∧
    Sentence.known_safes ⟨[((0 : Int), (0 : Int)), (0, 1)], 1⟩ = [] :=
  (C4_trivial_conclusions ⟨[(0, 0), (0, 1)], 1⟩).2.2.2.2 (by decide) (by decide)

/-- C9: `Sentence.mark_mine` removes a member cell and decrements the count;
`Sentence.mark_safe` removes a member cell leaving the count unchanged; both
are no-ops (hence idempotent) when the cell is absent, and neither touches
anything beyond the receiver's cell list and count. -/
theorem C9_sentence_mark_spec (s : Sentence) (c : Cell) :
    (c ∈ s.cells →
      s.mark_mine c = ⟨s.cells.erase c, s.count - 1⟩ ∧
      s.mark_safe c = ⟨s.cells.erase c, s.count⟩) ∧
    (c ∉ s.cells →
      s.mark_mine c = s ∧ s.mark_safe c = s ∧
      (s.mark_mine c).mark_mine c = s.mark_mine c ∧
      (s.mark_safe c).mark_safe c = s.mark_safe c) := by
  unfold Sentence.mark_mine Sentence.mark_safe
  constructor
  · intro h
    rw [if_pos h, if_pos h]
    exact ⟨rfl, rfl⟩
  · intro h
    rw [if_neg h, if_neg h, if_neg h, if_neg h]
    exact ⟨rfl, rfl, rfl, rfl⟩

/-- C9 witness: the theorem instantiated at the sentence `{(0,0),(1,1)} = 2`
and the member cell `(0,0)`. -/
theorem C9_sentence_mark_spec_witness :
    Sentence.mark_mine ⟨[((0 : Int), (0 : Int)), (1, 1)], 2⟩ (0, 0) =
      ⟨[((1 : Int), (1 : Int))], 1⟩ ∧
    Sentence.mark_safe ⟨[((0 : Int), (0 : Int)), (1, 1)], 2⟩ (0, 0) =
      ⟨[((1 : Int), (1 : Int))], 2⟩ :=
  (C9_sentence_mark_spec ⟨[(0, 0), (1, 1)], 2⟩ (0, 0)).1 (by decide)

/-- C1: refuted as stated — after `add_knowledge` returns, propagation has
not reached quiescence.  Concretely, on a 3×3 board, after the observation
sequence `((0,0),2)`, `((2,2),1)`, `((1,2),1)` the knowledge base still
contains the conclusive sentence `{(1,0),(1,1)} = 2`, and one further run
of `update_knowledge` marks `(1,0)` (and `(1,1)`) as mines, changing the
`mines` set.  The `while change:` loop of the source runs its body exactly
once because the statements that set `change = True` are outside the loop
body, so `update_knowledge` is a single pass, not a fixpoint. -/
theorem C1_update_knowledge_not_quiescent :
    (((((MinesweeperAI.init 3 3).add_knowledge (0, 0) 2).add_knowledge
      (2, 2) 1).add_knowledge (1, 2) 1).update_knowledge).mines = [(1, 0), (1, 1)] ∧
    ((((MinesweeperAI.init 3 3).add_knowledge (0, 0) 2).add_knowledge
      (2, 2) 1).add_knowledge (1, 2) 1).mines = [] ∧
    Sentence.mk [((1 : Int), (0 : Int)), (1, 1)] 2 ∈
      ((((MinesweeperAI.init 3 3).add_knowledge (0, 0) 2).add_knowledge
        (2, 2) 1).add_knowledge (1, 2) 1).knowledge := by
  decide

/-- C2: refuted as stated — the subset-subtraction step silently inserts a
sentence with a negative count into the knowledge base.  On a 3×3 board,
after the observation sequence `((1,1),1)`, `((0,1),2)` the knowledge base
contains the synthesized sentence `{(2,0),(2,1),(2,2)} = -1`: the source's
`if difSentenceCount >= 0:` guard merely rebinds the same value and filters
nothing. -/
theorem C2_negative_count_inserted :
    Sentence.mk [((2 : Int), (0 : Int)), (2, 1), (2, 2)] (-1) ∈
      (((MinesweeperAI.init 3 3).add_knowledge (1, 1) 1).add_knowledge
        (0, 1) 2).knowledge ∧
    (Sentence.mk [((2 : Int), (0 : Int)), (2, 1), (2, 2)] (-1)).count < 0 := by
  decide

/-- C3: refuted as stated — the in-grid test of `addNewStement` compares the
row against `width` and the column against `height`.  On a board with
`height = 1`, `width = 2` (cells `(0,0)` and `(0,1)`), observing `(0,0)`
with count `0` yields the sentence over `{(1,0)}`: the out-of-grid cell
`(1,0)` (row `1 ≥ height`) is included and the true in-grid neighbor
`(0,1)` is excluded. -/
theorem C3_neighbor_bounds_transposed :
    ((MinesweeperAI.init 1 2).addNewStement (0, 0) 0).knowledge =
      [Sentence.mk [((1 : Int), (0 : Int))] 0] ∧
    (MinesweeperAI.init 1 2).height = 1 ∧
    (MinesweeperAI.init 1 2).width = 2 := by
  decide

/-- C8: refuted as stated — `make_random_move` consults no source of
randomness and enumerates the cell universe as `(i, j)` with
`i < width`, `j < height`, transposing the claimed grid.  With
`height = 1`, `width = 2` the grid cells are `(0,0)` and `(0,1)`, yet the
code's universe is `[(0,0), (1,0)]` and the move returned is always the
first element `(0,0)` of the difference list. -/
theorem C8_random_move_transposed_universe :
    (MinesweeperAI.init 1 2).allcells = [(0, 0), (1, 0)] ∧
    (MinesweeperAI.init 1 2).make_random_move = some (0, 0) ∧
    ((0 : Int), (1 : Int)) ∉ (MinesweeperAI.init 1 2).allcells := by
  decide

/-- C5 counterexample: the disjointness part of the claim fails — after the
(inconsistent) observation sequence `((0,0),2)`, `((1,1),0)` on a 2×2
board, the cell `(0,1)` is a member of both `safes` and `mines`. -/
theorem C5_disjointness_counterexample :
    ((0 : Int), (1 : Int)) ∈
      (((MinesweeperAI.init 2 2).add_knowledge (0, 0) 2).add_knowledge
        (1, 1) 0).safes ∧
    ((0 : Int), (1 : Int)) ∈
      (((MinesweeperAI.init 2 2).add_knowledge (0, 0) 2).add_knowledge
        (1, 1) 0).mines := by
  decide

/-! ### Monotonicity of the agent's classification sets -/

/-- The three append-only sets of one agent state are contained in those of
another. -/
def stGrows (a b : MinesweeperAI) : Prop :=
  a.moves_made ⊆ b.moves_made ∧ a.safes ⊆ b.safes ∧ a.mines ⊆ b.mines

theorem stGrows_refl (a : MinesweeperAI) : stGrows a a :=
  ⟨List.Subset.refl _, List.Subset.refl _, List.Subset.refl _⟩

theorem stGrows_trans {a b c : MinesweeperAI} (h1 : stGrows a b)
    (h2 : stGrows b c) : stGrows a c :=
  ⟨h1.1.trans h2.1, h1.2.1.trans h2.2.1, h1.2.2.trans h2.2.2⟩

theorem foldl_mark_safe_fields (l : List Cell) (ai : MinesweeperAI) :
    (l.foldl MinesweeperAI.mark_safe ai).moves_made = ai.moves_made ∧
    (l.foldl MinesweeperAI.mark_safe ai).mines = ai.mines ∧
    ai.safes ⊆ (l.foldl MinesweeperAI.mark_safe ai).safes := by
  induction l generalizing ai with
  | nil => exact ⟨rfl, rfl, List.Subset.refl _⟩
  | cons a l ih =>
      obtain ⟨h1, h2, h3⟩ := ih (ai.mark_safe a)
      exact ⟨h1, h2, (subset_setAdd ai.safes a).trans h3⟩

theorem foldl_mark_mine_fields (l : List Cell) (ai : MinesweeperAI) :
    (l.foldl MinesweeperAI.mark_mine ai).moves_made = ai.moves_made ∧
    (l.foldl MinesweeperAI.mark_mine ai).safes = ai.safes ∧
    ai.mines ⊆ (l.foldl MinesweeperAI.mark_mine ai).mines := by
  induction l generalizing ai with
  | nil => exact ⟨rfl, rfl, List.Subset.refl _⟩
  | cons a l ih =>
      obtain ⟨h1, h2, h3⟩ := ih (ai.mark_mine a)
      exact ⟨h1, h2, (subset_setAdd ai.mines a).trans h3⟩

theorem update_knowledge_moves (ai : MinesweeperAI) :
    ai.update_knowledge.moves_made = ai.moves_made := by
  simp only [MinesweeperAI.update_knowledge]
  rw [(foldl_mark_mine_fields _ _).1, (foldl_mark_safe_fields _ _).1]

theorem update_knowledge_safes (ai : MinesweeperAI) :
    ai.safes ⊆ ai.update_knowledge.safes := by
  simp only [MinesweeperAI.update_knowledge]
  rw [(foldl_mark_mine_fields _ _).2.1]
  exact (foldl_mark_safe_fields _ _).2.2

theorem update_knowledge_mines (ai : MinesweeperAI) :
    ai.mines ⊆ ai.update_knowledge.mines := by
  simp only [MinesweeperAI.update_knowledge]
  intro x hx
  refine (foldl_mark_mine_fields _ _).2.2 ?_
  rw [(foldl_mark_safe_fields _ _).2.1]
  exact hx

theorem stGrows_update_knowledge (ai : MinesweeperAI) :
    stGrows ai ai.update_knowledge :=
  ⟨fun _ hx => (update_knowledge_moves ai).symm ▸ hx,
   update_knowledge_safes ai, update_knowledge_mines ai⟩

theorem stGrows_checkNewStement (ai : MinesweeperAI) :
    stGrows ai ai.checkNewStement :=
  ⟨List.Subset.refl _, List.Subset.refl _, List.Subset.refl _⟩

theorem stGrows_addNewStement (ai : MinesweeperAI) (cell : Cell) (count : Int) :
    stGrows ai (ai.addNewStement cell count) :=
  ⟨List.Subset.refl _, List.Subset.refl _, List.Subset.refl _⟩

theorem stGrows_mark_safe (ai : MinesweeperAI) (cell : Cell) :
    stGrows ai (ai.mark_safe cell) :=
  ⟨List.Subset.refl _, subset_setAdd _ _, List.Subset.refl _⟩

theorem stGrows_add_knowledge (ai : MinesweeperAI) (cell : Cell) (count : Int) :
    stGrows ai (ai.add_knowledge cell count) := by
  unfold MinesweeperAI.add_knowledge
  refine stGrows_trans (stGrows_trans (stGrows_trans (stGrows_trans (stGrows_trans
    (⟨subset_setAdd ai.moves_made cell, List.Subset.refl _, List.Subset.refl _⟩ :
      stGrows ai { ai with moves_made := setAdd ai.moves_made cell })
    (stGrows_mark_safe _ _)) (stGrows_addNewStement _ _ _))
    (stGrows_update_knowledge _)) (stGrows_checkNewStement _))
    (stGrows_update_knowledge _)

theorem stGrows_foldl_add_knowledge (ai : MinesweeperAI)
    (obs : List (Cell × Int)) :
    stGrows ai (obs.foldl (fun s p => s.add_knowledge p.1 p.2) ai) := by
  induction obs generalizing ai with
  | nil => exact stGrows_refl ai
  | cons o obs ih =>
      exact stGrows_trans (stGrows_add_knowledge ai o.1 o.2)
        (ih (ai.add_knowledge o.1 o.2))

/-- C5 (amended): across any sequence of `add_knowledge` calls the sets
`moves_made`, `safes` and `mines` only grow — no element is ever removed.
The disjointness half of the original claim fails (see the accompanying
counterexample): an inconsistent observation sequence can put the same cell
into both `safes` and `mines`. -/
theorem C5_monotonicity (ai : MinesweeperAI) (obs : List (Cell × Int)) :
    ai.moves_made ⊆ (obs.foldl (fun s p => s.add_knowledge p.1 p.2) ai).moves_made ∧
    ai.safes ⊆ (obs.foldl (fun s p => s.add_knowledge p.1 p.2) ai).safes ∧
    ai.mines ⊆ (obs.foldl (fun s p => s.add_knowledge p.1 p.2) ai).mines :=
  stGrows_foldl_add_knowledge ai obs

/-- C7: `make_safe_move` returns `none` exactly when
`safes - moves_made - mines` is empty, and any returned cell is a member of
`safes` that is neither in `moves_made` nor in `mines`.  The function is
pure: it reads the three sets and modifies nothing. -/
theorem C7_make_safe_move_spec (ai : MinesweeperAI) :
    (ai.make_safe_move = none ↔
      setDiff (setDiff ai.safes ai.moves_made) ai.mines = []) ∧
    (∀ c : Cell, ai.make_safe_move = some c →
      c ∈ ai.safes ∧ c ∉ ai.moves_made ∧ c ∉ ai.mines) := by
  have hmem : ∀ c : Cell, c ∈ setDiff (setDiff ai.safes ai.moves_made) ai.mines →
      c ∈ ai.safes ∧ c ∉ ai.moves_made ∧ c ∉ ai.mines := by
    intro c hc
    rw [mem_setDiff] at hc
    obtain ⟨hc1, hc3⟩ := hc
    rw [mem_setDiff] at hc1
    exact ⟨hc1.1, hc1.2, hc3⟩
  simp only [MinesweeperAI.make_safe_move]
  cases hd : setDiff (setDiff ai.safes ai.moves_made) ai.mines with
  | nil => simp
  | cons a l =>
      constructor
      · simp
      · intro c hc
        simp only [List.length_cons, List.head?_cons, if_pos (Nat.succ_pos l.length),
          Option.some_inj] at hc
        exact hc ▸ hmem a (hd ▸ List.mem_cons_self a l)

/-- C7 witness: the theorem applied to a concrete agent whose
`safes - moves_made - mines` set is the singleton `{(0,1)}`. -/
theorem C7_make_safe_move_spec_witness :
    ((0 : Int), (1 : Int)) ∈
        (⟨2, 2, [(0, 0)], [], [(0, 0), (0, 1)], []⟩ : MinesweeperAI).safes ∧
    ((0 : Int), (1 : Int)) ∉
        (⟨2, 2, [(0, 0)], [], [(0, 0), (0, 1)], []⟩ : MinesweeperAI).moves_made ∧
    ((0 : Int), (1 : Int)) ∉
        (⟨2, 2, [(0, 0)], [], [(0, 0), (0, 1)], []⟩ : MinesweeperAI).mines :=
  (C7_make_safe_move_spec ⟨2, 2, [(0, 0)], [], [(0, 0), (0, 1)], []⟩).2
    (0, 1) (by decide)

/-- C10: `make_random_move` is a deterministic function that consults only
`width`, `height`, `mines` and `moves_made`: two agents agreeing on those
four fields (whatever their `safes` and `knowledge`) get equal results. -/
theorem C10_make_random_move_deterministic (a b : MinesweeperAI)
    (hw : a.width = b.width) (hh : a.height = b.height)
    (hm : a.mines = b.mines) (hmoves : a.moves_made = b.moves_made) :
    a.make_random_move = b.make_random_move := by
  simp only [MinesweeperAI.make_random_move, MinesweeperAI.allcells]
  rw [hw, hh, hm, hmoves]

/-- C10 witness: the theorem applied to two concrete agents that differ in
`safes` and `knowledge` but agree on the four consulted fields. -/
theorem C10_make_random_move_deterministic_witness :
    (⟨2, 2, [], [], [], []⟩ : MinesweeperAI).make_random_move =
    (⟨2, 2, [], [], [(1, 1)], [⟨[(0, 0)], 1⟩]⟩ : MinesweeperAI).make_random_move :=
  C10_make_random_move_deterministic _ _ rfl rfl rfl rfl

/-- C6: sentences built by the constructor from two insertion orders are
`__eq__`-equal exactly when the cell lists have the same members and the
counts coincide; `__eq__`-equal sentences have identical `__hash__` values,
so the membership tests used for deduplication identify them. -/
theorem C6_sentence_eq_hash (l₁ l₂ : List Cell) (c₁ c₂ : Int) :
    ((Sentence.ofList l₁ c₁).pyEq (Sentence.ofList l₂ c₂) = true ↔
      ((∀ x : Cell, x ∈ l₁ ↔ x ∈ l₂) ∧ c₁ = c₂)) ∧
    ((Sentence.ofList l₁ c₁).pyEq (Sentence.ofList l₂ c₂) = true →
      (Sentence.ofList l₁ c₁).pyHash = (Sentence.ofList l₂ c₂).pyHash) := by
  have hiff : (Sentence.ofList l₁ c₁).pyEq (Sentence.ofList l₂ c₂) = true ↔
      ((∀ x : Cell, x ∈ l₁ ↔ x ∈ l₂) ∧ c₁ = c₂) := by
    simp only [Sentence.pyEq, Sentence.ofList, decide_eq_true_eq, mem_pySet]
    constructor
    · rintro ⟨h1, h2, h3⟩
      exact ⟨fun x => ⟨fun hx => h1 x hx, fun hx => h2 x hx⟩, h3⟩
    · rintro ⟨h, h3⟩
      exact ⟨fun x hx => (h x).mp hx, fun x hx => (h x).mpr hx, h3⟩
  refine ⟨hiff, fun heq => ?_⟩
  obtain ⟨hmem, hc⟩ := hiff.mp heq
  have hperm : List.Perm (pySet l₁) (pySet l₂) :=
    (List.perm_ext_iff_of_nodup (nodup_pySet l₁) (nodup_pySet l₂)).mpr
      (fun a => by rw [mem_pySet, mem_pySet]; exact hmem a)
  simp only [Sentence.pyHash, Sentence.ofList]
  rw [(hperm.map (fun c : Cell => c.1 * 1000003 + c.2)).sum_eq, hc]

/-- C6 witness: the theorem applied to two insertion orders of the same
two-element cell set (one with a repeated element), with equal counts. -/
theorem C6_sentence_eq_hash_witness :
    (Sentence.ofList [((0 : Int), (0 : Int)), (1, 1)] 3).pyHash =
    (Sentence.ofList [((1 : Int), (1 : Int)), (0, 0), (1, 1)] 3).pyHash :=
  (C6_sentence_eq_hash [(0, 0), (1, 1)] [(1, 1), (0, 0), (1, 1)] 3 3).2 (by decide)
